import Mathlib

/-!
# Shallow embedding of the `wgpu_learning` transform/render core

This file embeds the transform, camera and per-frame state logic of the
repository in Lean 4 and proves the specification claims about it.

Conventions of the embedding:

* `f32` scalars are modelled as exact rationals (`ℚ`); the claims under
  scrutiny are algebraic (composition order, inverse-transpose, additive
  displacement, case analysis of error handling), not about rounding.
* cgmath matrices are column-major: `Matrix4.x` is the first *column*, and
  `m.x.w` is the w (fourth, bottom-row) component of the first column.
* Transcendental operations (`sqrt` used by `normalize`, `cot` used by the
  perspective projection, the sine/cosine hidden in
  `Quaternion::from_axis_angle`) are taken as parameters of the embedding:
  the theorems hold for every choice of these functions, hence in
  particular for the real ones.
* A Rust `panic!` / `.unwrap()` failure is modelled by `Option.none`.
-/

namespace WgpuLearning

/-- cgmath `Vector3<f32>`. -/
@[ext]
structure Vector3 where
  x : ℚ
  y : ℚ
  z : ℚ
deriving DecidableEq, Repr

/-- cgmath `Vector4<f32>`. -/
@[ext]
structure Vector4 where
  x : ℚ
  y : ℚ
  z : ℚ
  w : ℚ
deriving DecidableEq, Repr

/-- cgmath `Matrix3<f32>`: three *columns* `x`, `y`, `z`. -/
@[ext]
structure Matrix3 where
  x : Vector3
  y : Vector3
  z : Vector3
deriving DecidableEq, Repr

/-- cgmath `Matrix4<f32>`: four *columns* `x`, `y`, `z`, `w`. -/
@[ext]
structure Matrix4 where
  x : Vector4
  y : Vector4
  z : Vector4
  w : Vector4
deriving DecidableEq, Repr

namespace Vector3

def add (a b : Vector3) : Vector3 := ⟨a.x + b.x, a.y + b.y, a.z + b.z⟩

def sub (a b : Vector3) : Vector3 := ⟨a.x - b.x, a.y - b.y, a.z - b.z⟩

def neg (a : Vector3) : Vector3 := ⟨-a.x, -a.y, -a.z⟩

/-- cgmath `Vector3 * scalar`. -/
def scale (a : Vector3) (s : ℚ) : Vector3 := ⟨a.x * s, a.y * s, a.z * s⟩

/-- cgmath `Vector3 / scalar`. -/
def divScalar (a : Vector3) (s : ℚ) : Vector3 := ⟨a.x / s, a.y / s, a.z / s⟩

/-- cgmath `InnerSpace::dot`. -/
def dot (a b : Vector3) : ℚ := a.x * b.x + a.y * b.y + a.z * b.z

/-- cgmath `Vector3::cross`. -/
def cross (a b : Vector3) : Vector3 :=
  ⟨a.y * b.z - a.z * b.y, a.z * b.x - a.x * b.z, a.x * b.y - a.y * b.x⟩

instance : Add Vector3 := ⟨add⟩
instance : Sub Vector3 := ⟨sub⟩
instance : Neg Vector3 := ⟨neg⟩

def zero : Vector3 := ⟨0, 0, 0⟩

instance : Zero Vector3 := ⟨zero⟩

/-- Squared Euclidean norm (`InnerSpace::magnitude2`). -/
def normSq (a : Vector3) : ℚ := dot a a

/-- cgmath `InnerSpace::normalize`: `self * (1 / magnitude)`.  The square
root inside `magnitude` is supplied as the parameter `sqrtQ`. -/
def normalize (sqrtQ : ℚ → ℚ) (a : Vector3) : Vector3 :=
  a.scale (1 / sqrtQ (dot a a))

end Vector3

namespace Matrix3

/-- cgmath `Matrix3::new(c0r0, c0r1, c0r2, c1r0, ...)` is column-major. -/
def transpose (m : Matrix3) : Matrix3 :=
  ⟨⟨m.x.x, m.y.x, m.z.x⟩, ⟨m.x.y, m.y.y, m.z.y⟩, ⟨m.x.z, m.y.z, m.z.z⟩⟩

/-- Matrix-vector product: linear combination of the columns. -/
def mulVec (m : Matrix3) (v : Vector3) : Vector3 :=
  m.x.scale v.x + m.y.scale v.y + m.z.scale v.z

/-- Matrix product, column by column (cgmath `Mul` for `Matrix3`). -/
def mul (a b : Matrix3) : Matrix3 := ⟨a.mulVec b.x, a.mulVec b.y, a.mulVec b.z⟩

instance : Mul Matrix3 := ⟨mul⟩

/-- cgmath `SquareMatrix::identity`. -/
def identity : Matrix3 := ⟨⟨1, 0, 0⟩, ⟨0, 1, 0⟩, ⟨0, 0, 1⟩⟩

/-- cgmath `Matrix3::determinant`: `self.x.cross(self.y).dot(self.z)`. -/
def determinant (m : Matrix3) : ℚ := (m.x.cross m.y).dot m.z

/-- cgmath `SquareMatrix::invert` for `Matrix3`: `None` when the
determinant vanishes (the exact-arithmetic reading of the float
zero test), otherwise the adjugate divided by the determinant —
the rows of the inverse are the cross products of the columns. -/
def invert (m : Matrix3) : Option Matrix3 :=
  let det := m.determinant
  if det = 0 then none
  else
    some (transpose ⟨(m.y.cross m.z).divScalar det,
                     (m.z.cross m.x).divScalar det,
                     (m.x.cross m.y).divScalar det⟩)

end Matrix3

namespace Matrix4

/-- Matrix-vector product: linear combination of the columns. -/
def mulVec (m : Matrix4) (v : Vector4) : Vector4 :=
  ⟨m.x.x * v.x + m.y.x * v.y + m.z.x * v.z + m.w.x * v.w,
   m.x.y * v.x + m.y.y * v.y + m.z.y * v.z + m.w.y * v.w,
   m.x.z * v.x + m.y.z * v.y + m.z.z * v.z + m.w.z * v.w,
   m.x.w * v.x + m.y.w * v.y + m.z.w * v.z + m.w.w * v.w⟩

/-- Matrix product, column by column (cgmath `Mul` for `Matrix4`). -/
def mul (a b : Matrix4) : Matrix4 :=
  ⟨a.mulVec b.x, a.mulVec b.y, a.mulVec b.z, a.mulVec b.w⟩

instance : Mul Matrix4 := ⟨mul⟩

/-- cgmath `SquareMatrix::identity`. -/
def identity : Matrix4 :=
  ⟨⟨1, 0, 0, 0⟩, ⟨0, 1, 0, 0⟩, ⟨0, 0, 1, 0⟩, ⟨0, 0, 0, 1⟩⟩

end Matrix4

/-- cgmath `Quaternion<f32>`: scalar part `s` and vector part `v`. -/
@[ext]
structure Quaternion where
  s : ℚ
  v : Vector3
deriving DecidableEq, Repr

namespace Quaternion

/-- cgmath `Rotation3::from_axis_angle(axis, angle)`:
`Quaternion::from_sv(cos(angle/2), axis * sin(angle/2))`.  The half-angle
cosine `ch` and sine `sh` are parameters of the embedding. -/
def fromAxisAngle (axis : Vector3) (ch sh : ℚ) : Quaternion :=
  ⟨ch, axis.scale sh⟩

/-- cgmath `Quaternion * Vector3` (rotation of a vector):
`let tmp = self.v.cross(vec) + (vec * self.s); vec + (self.v.cross(tmp) * 2)`. -/
def rotateVector (q : Quaternion) (vec : Vector3) : Vector3 :=
  let tmp := q.v.cross vec + vec.scale q.s
  vec + (q.v.cross tmp).scale 2

/-- cgmath `From<Quaternion> for Matrix3`. -/
def toMatrix3 (quat : Quaternion) : Matrix3 :=
  let x2 := quat.v.x + quat.v.x
  let y2 := quat.v.y + quat.v.y
  let z2 := quat.v.z + quat.v.z
  let xx2 := x2 * quat.v.x
  let xy2 := x2 * quat.v.y
  let xz2 := x2 * quat.v.z
  let yy2 := y2 * quat.v.y
  let yz2 := y2 * quat.v.z
  let zz2 := z2 * quat.v.z
  let sy2 := y2 * quat.s
  let sz2 := z2 * quat.s
  let sx2 := x2 * quat.s
  ⟨⟨1 - yy2 - zz2, xy2 + sz2, xz2 - sy2⟩,
   ⟨xy2 - sz2, 1 - xx2 - zz2, yz2 + sx2⟩,
   ⟨xz2 + sy2, yz2 - sx2, 1 - xx2 - yy2⟩⟩

/-- cgmath `From<Quaternion> for Matrix4`: the rotation block of
`toMatrix3` extended with an identity translation row/column. -/
def toMatrix4 (quat : Quaternion) : Matrix4 :=
  let m := quat.toMatrix3
  ⟨⟨m.x.x, m.x.y, m.x.z, 0⟩,
   ⟨m.y.x, m.y.y, m.y.z, 0⟩,
   ⟨m.z.x, m.z.y, m.z.z, 0⟩,
   ⟨0, 0, 0, 1⟩⟩

end Quaternion

/-! ## `src/model_matrix.rs` -/

/-- `mat4_to_mat3` (`src/model_matrix.rs`): the upper-left 3x3 block,
built column by column. -/
def mat4_to_mat3 (mat : Matrix4) : Matrix3 :=
  ⟨⟨mat.x.x, mat.x.y, mat.x.z⟩,
   ⟨mat.y.x, mat.y.y, mat.y.z⟩,
   ⟨mat.z.x, mat.z.y, mat.z.z⟩⟩

/-- `RawModelMatrix` (`src/model_matrix.rs`): the GPU-facing record of the
composed model matrix and its normal matrix. -/
@[ext]
structure RawModelMatrix where
  model : Matrix4
  normal : Matrix3
deriving DecidableEq, Repr

namespace RawModelMatrix

/-- `RawModelMatrix::new` (`src/model_matrix.rs`): stores the transform and
the inverse of the transpose of its upper-left 3x3 block.  The `.unwrap()`
on the inversion panics on a singular block; the panic is `none`. -/
def new (transform : Matrix4) : Option RawModelMatrix :=
  let model := transform
  let normal_matrix := mat4_to_mat3 transform
  let normal_matrix := normal_matrix.transpose
  match normal_matrix.invert with
  | none => none
  | some normal => some { model := model, normal := normal }

end RawModelMatrix

/-- `ModelMatrix` (`src/model_matrix.rs`).  The Rust field `local` is a Lean
keyword, embedded as `localM`; `buffer` holds the `RawModelMatrix` record
serialized into the GPU buffer. -/
@[ext]
structure ModelMatrix where
  localM : Matrix4
  world : Matrix4
  buffer : RawModelMatrix
deriving DecidableEq, Repr

namespace ModelMatrix

/-- `ModelMatrix::new(device, local_transform, world_transform)`
(`src/model_matrix.rs`): builds the buffer record from
`local_transform * world_transform` (in that order).  `none` models the
panic on a singular 3x3 block. -/
def new (local_transform world_transform : Matrix4) : Option ModelMatrix :=
  (RawModelMatrix.new (local_transform * world_transform)).map fun raw_matrix =>
    { localM := local_transform, world := world_transform, buffer := raw_matrix }

/-- `ModelMatrix::translate_local`: adds the delta to the w components of
the first three columns of `local`. -/
def translate_local (m : ModelMatrix) (position : Vector3) : ModelMatrix :=
  { m with
    localM.x.w := m.localM.x.w + position.x
    localM.y.w := m.localM.y.w + position.y
    localM.z.w := m.localM.z.w + position.z }

/-- `ModelMatrix::translate_world`: adds the delta to the w components of
the first three columns of `world`. -/
def translate_world (m : ModelMatrix) (position : Vector3) : ModelMatrix :=
  { m with
    world.x.w := m.world.x.w + position.x
    world.y.w := m.world.y.w + position.y
    world.z.w := m.world.z.w + position.z }

/-- `ModelMatrix::scale_local`. -/
def scale_local (m : ModelMatrix) (scale : Vector3) : ModelMatrix :=
  { m with
    localM.x.x := m.localM.x.x * scale.x
    localM.y.y := m.localM.y.y * scale.y
    localM.z.z := m.localM.z.z * scale.z }

/-- `ModelMatrix::scale_world`. -/
def scale_world (m : ModelMatrix) (scale : Vector3) : ModelMatrix :=
  { m with
    world.x.x := m.world.x.x * scale.x
    world.y.y := m.world.y.y * scale.y
    world.z.z := m.world.z.z * scale.z }

/-- `ModelMatrix::rotate_world`: `self.world = self.world * rotation_matrix`. -/
def rotate_world (m : ModelMatrix) (rotation : Quaternion) : ModelMatrix :=
  { m with world := m.world * rotation.toMatrix4 }

/-- `ModelMatrix::rotate_local`: `self.local = self.local * rotation_matrix`. -/
def rotate_local (m : ModelMatrix) (rotation : Quaternion) : ModelMatrix :=
  { m with localM := m.localM * rotation.toMatrix4 }

/-- `ModelMatrix::to_raw`: `RawModelMatrix::new(self.world * self.local)`. -/
def to_raw (m : ModelMatrix) : Option RawModelMatrix :=
  RawModelMatrix.new (m.world * m.localM)

end ModelMatrix

/-! ## `src/constants.rs` -/

/-- `OPENGL_TO_WGPU_MATRIX` (`src/constants.rs`), column-major:
`Matrix4::new(1,0,0,0, 0,1,0,0, 0,0,0.5,0, 0,0,0.5,1)`. -/
def OPENGL_TO_WGPU_MATRIX : Matrix4 :=
  ⟨⟨1, 0, 0, 0⟩, ⟨0, 1, 0, 0⟩, ⟨0, 0, 1/2, 0⟩, ⟨0, 0, 1/2, 1⟩⟩

def WIDTH : ℕ := 1280
def HEIGHT : ℕ := 720

/-- `FOV: f32 = 90.0` (degrees). -/
def FOV : ℚ := 90

def NEAR_CLIP : ℚ := 1/10
def FAR_CLIP : ℚ := 100

/-- `CAM_SPEED: f32 = 0.05`. -/
def CAM_SPEED : ℚ := 1/20
/-- `CAM_ROT_SPEED: f32 = 0.1`. -/
def CAM_ROT_SPEED : ℚ := 1/10

/-! ## `src/camera.rs` -/

/-- cgmath `Matrix4::look_at_rh(eye, center, up)`:
`f = (center - eye).normalize(); s = f.cross(up).normalize(); u = s.cross(f)`,
assembled column-major with the negated forward axis in the third row. -/
def lookAtRh (sqrtQ : ℚ → ℚ) (eye center up : Vector3) : Matrix4 :=
  let f := (center - eye).normalize sqrtQ
  let s := (f.cross up).normalize sqrtQ
  let u := s.cross f
  ⟨⟨s.x, u.x, -f.x, 0⟩,
   ⟨s.y, u.y, -f.y, 0⟩,
   ⟨s.z, u.z, -f.z, 0⟩,
   ⟨-(eye.dot s), -(eye.dot u), eye.dot f, 1⟩⟩

/-- cgmath `From<PerspectiveFov> for Matrix4` (right-handed):
`f = cot(fovy / 2)` is the first argument, already evaluated, since the
cotangent is transcendental. -/
def perspectiveMatrix (f aspect near far : ℚ) : Matrix4 :=
  ⟨⟨f / aspect, 0, 0, 0⟩,
   ⟨0, f, 0, 0⟩,
   ⟨0, 0, (far + near) / (near - far), -1⟩,
   ⟨0, 0, (2 * far * near) / (near - far), 0⟩⟩

/-- `Camera` (`src/camera.rs`): pose, aspect ratio, the CPU-side
`CameraUniform` copy of the view-projection matrix and the contents of the
GPU uniform buffer. -/
@[ext]
structure Camera where
  position : Vector3
  target : Vector3
  up : Vector3
  aspect : ℚ
  uniform : Matrix4
  buffer : Matrix4
deriving DecidableEq, Repr

namespace Camera

/-- `Camera::build_view_projection_matrix`:
`OPENGL_TO_WGPU_MATRIX * projection * view` where the projection uses the
fixed `FOV`, `NEAR_CLIP`, `FAR_CLIP` constants and the camera's aspect.
`cotHalfDeg` stands for `fovy ↦ cot(radians(fovy) / 2)` from cgmath's
`perspective(Deg(FOV), ...)`. -/
def build_view_projection_matrix (sqrtQ cotHalfDeg : ℚ → ℚ) (c : Camera) :
    Matrix4 :=
  let view := lookAtRh sqrtQ c.position c.target c.up
  let projection := perspectiveMatrix (cotHalfDeg FOV) c.aspect NEAR_CLIP FAR_CLIP
  OPENGL_TO_WGPU_MATRIX * projection * view

/-- `Camera::update_view_proj`: recomputes the uniform and rewrites the
GPU buffer with it. -/
def update_view_proj (sqrtQ cotHalfDeg : ℚ → ℚ) (c : Camera) : Camera :=
  let m := c.build_view_projection_matrix sqrtQ cotHalfDeg
  { c with uniform := m, buffer := m }

/-- `Camera::new`: fixed initial pose `(0,0,2) → (0,0,-1)`, up `(0,1,0)`,
aspect `WIDTH / HEIGHT`. -/
def new (sqrtQ cotHalfDeg : ℚ → ℚ) : Camera :=
  let position : Vector3 := ⟨0, 0, 2⟩
  let target : Vector3 := ⟨0, 0, -1⟩
  let up : Vector3 := ⟨0, 1, 0⟩
  let aspect : ℚ := (WIDTH : ℚ) / (HEIGHT : ℚ)
  let matrix := build_view_projection_matrix sqrtQ cotHalfDeg
    { position := position, target := target, up := up, aspect := aspect
      uniform := Matrix4.identity, buffer := Matrix4.identity }
  { position := position, target := target, up := up, aspect := aspect
    uniform := matrix, buffer := matrix }

end Camera

/-- `CameraController` (`src/camera.rs`). -/
@[ext]
structure CameraController where
  speed : ℚ
  rot_speed : ℚ
  left_press : Bool
  right_press : Bool
  up_press : Bool
  down_press : Bool
  rotate_left : Bool
  rotate_right : Bool
deriving DecidableEq, Repr

namespace CameraController

/-- `CameraController::new`. -/
def new : CameraController :=
  { speed := CAM_SPEED, rot_speed := CAM_ROT_SPEED
    left_press := false, right_press := false
    up_press := false, down_press := false
    rotate_left := false, rotate_right := false }

/-- `CameraController::update_camera`: `forward` is computed once from the
incoming camera state; each active axis then displaces position and target
in sequence.  The lateral axes use `forward.cross(camera.up).normalize()`. -/
def update_camera (sqrtQ : ℚ → ℚ) (ctrl : CameraController) (camera : Camera) :
    Camera :=
  let forward := (camera.target - camera.position).normalize sqrtQ
  let camera :=
    if ctrl.up_press then
      let move_val := forward.scale ctrl.speed
      { camera with position := camera.position + move_val
                    target := camera.target + move_val }
    else camera
  let camera :=
    if ctrl.down_press then
      let move_val := forward.scale ctrl.speed
      { camera with position := camera.position - move_val
                    target := camera.target - move_val }
    else camera
  let camera :=
    if ctrl.left_press then
      let move_val := ((forward.cross camera.up).normalize sqrtQ).scale ctrl.speed
      { camera with position := camera.position - move_val
                    target := camera.target - move_val }
    else camera
  let camera :=
    if ctrl.right_press then
      let move_val := ((forward.cross camera.up).normalize sqrtQ).scale ctrl.speed
      { camera with position := camera.position + move_val
                    target := camera.target + move_val }
    else camera
  camera

end CameraController

/-! ## `src/light.rs` data (reconstructed from its uses) and `src/lib.rs` -/

/-- The light's uniform record: world-space position and color.  The file
`light.rs` is not under `src/`; the record's two fields are exactly those
`State::update` reads and writes (`src/lib.rs` lines 138-148) and §3 of the
design (`{ position: 3-vector, color: 3-vector }`; GPU padding is ignored). -/
@[ext]
structure LightUniform where
  position : Vector3
  color : Vector3
deriving DecidableEq, Repr

/-- `Light`: the CPU-side uniform and the contents of its GPU buffer. -/
@[ext]
structure Light where
  uniform : LightUniform
  buffer : LightUniform
deriving DecidableEq, Repr

/-- `wgpu::SurfaceError` variants relevant to `State::render`. -/
inductive SurfaceError
  | Timeout
  | Outdated
  | Lost
  | OutOfMemory
deriving DecidableEq, Repr

/-- `winit::event_loop::ControlFlow`, restricted to the two values the
event loop uses: keep running, or exit. -/
inductive ControlFlow
  | Poll
  | Exit
deriving DecidableEq, Repr

/-- The mutable per-frame state owned by `State` (`src/lib.rs`) that the
claims concern: surface/config sizes, depth texture size, camera,
controller, light and the object's model matrix.  `obj_model`'s
`Model::rotate_world` (in the absent `model.rs`) is modelled as acting on
the model's `ModelMatrix`, per §4.6 step 3 of the design. -/
@[ext]
structure AppState where
  size : ℕ × ℕ
  configWidth : ℕ
  configHeight : ℕ
  depthTexture : ℕ × ℕ
  camera : Camera
  cameraController : CameraController
  light : Light
  objModelMatrix : ModelMatrix
deriving DecidableEq, Repr

namespace AppState

/-- `State::resize` (`src/lib.rs` lines 111-124).  Returns the new state
together with the list of `surface.configure` calls performed (by their
configured size).  Guarded: only a size with positive width and height
stores the size, reconfigures the surface, recreates the depth texture and
updates the camera aspect and uniform. -/
def resize (sqrtQ cotHalfDeg : ℚ → ℚ) (s : AppState) (new_size : ℕ × ℕ) :
    AppState × List (ℕ × ℕ) :=
  if new_size.1 > 0 ∧ new_size.2 > 0 then
    let s := { s with size := new_size
                      configWidth := new_size.1
                      configHeight := new_size.2 }
    let s := { s with depthTexture := (s.configWidth, s.configHeight) }
    let camera := { s.camera with
                    aspect := (new_size.1 : ℚ) / (new_size.2 : ℚ) }
    let camera := camera.update_view_proj sqrtQ cotHalfDeg
    ({ s with camera := camera }, [new_size])
  else (s, [])

/-- `State::update` (`src/lib.rs` lines 130-157): camera step and uniform
re-upload, light position rotated by `Quaternion::from_axis_angle(unit_y,
Deg(1.0))` and re-uploaded, object world rotation advanced by
`from_axis_angle(unit_y, Deg(0.2))` and its buffer rewritten with
`to_raw()`.  `chL, shL` are cos/sin of half of 1 degree and `chO, shO`
cos/sin of half of 0.2 degrees; `none` models the `to_raw` panic on a
singular block. -/
def update (sqrtQ cotHalfDeg : ℚ → ℚ) (chL shL chO shO : ℚ) (s : AppState) :
    Option AppState :=
  let camera := s.cameraController.update_camera sqrtQ s.camera
  let camera := camera.update_view_proj sqrtQ cotHalfDeg
  let camera := { camera with buffer := camera.uniform }
  let pos := s.light.uniform.position
  let lightUniform := { s.light.uniform with
    position := (Quaternion.fromAxisAngle ⟨0, 1, 0⟩ chL shL).rotateVector pos }
  let light : Light := { uniform := lightUniform, buffer := lightUniform }
  let rotation := Quaternion.fromAxisAngle ⟨0, 1, 0⟩ chO shO
  let objMM := s.objModelMatrix.rotate_world rotation
  match objMM.to_raw with
  | none => none
  | some raw =>
      some { s with camera := camera, light := light
                    objModelMatrix := { objMM with buffer := raw } }

/-- Iterated per-frame update («N ticks»). -/
def updateIter (sqrtQ cotHalfDeg : ℚ → ℚ) (chL shL chO shO : ℚ) :
    ℕ → AppState → Option AppState
  | 0, s => some s
  | n + 1, s =>
      match update sqrtQ cotHalfDeg chL shL chO shO s with
      | none => none
      | some s => updateIter sqrtQ cotHalfDeg chL shL chO shO n s

end AppState

/-- The `match state.render()` arm of the event loop (`src/lib.rs` lines
243-251).  Returns the state after handling, the control flow, the list of
`State::resize` calls made (by argument), and the list of errors logged via
`eprintln!`.  `Ok` leaves everything unchanged; `Lost` calls
`state.resize(state.ctx.size)`; `OutOfMemory` sets `ControlFlow::Exit`;
every other error is only logged. -/
def handleRenderResult (sqrtQ cotHalfDeg : ℚ → ℚ)
    (res : Except SurfaceError Unit) (s : AppState) (cf : ControlFlow) :
    AppState × ControlFlow × List (ℕ × ℕ) × List SurfaceError :=
  match res with
  | .ok _ => (s, cf, [], [])
  | .error .Lost => ((s.resize sqrtQ cotHalfDeg s.size).1, cf, [s.size], [])
  | .error .OutOfMemory => (s, ControlFlow.Exit, [], [])
  | .error e => (s, cf, [], [e])

/-! ## Spec-side definitions (for relational claims)

The design document phrases the light animation as: position after `N`
ticks equals the initial position rotated by `N` times the fixed per-tick
angle about the world vertical axis.  The `N`-fold angle is expressed by
the cosine/sine angle-addition recurrence, so the statement stays inside
exact arithmetic. -/

/-- `(cos (n*θ), sin (n*θ))` computed from `(cos θ, sin θ) = (c, s)` by the
angle-addition formulas. -/
def specAngleN (c s : ℚ) : ℕ → ℚ × ℚ
  | 0 => (1, 0)
  | n + 1 =>
      (c * (specAngleN c s n).1 - s * (specAngleN c s n).2,
       s * (specAngleN c s n).1 + c * (specAngleN c s n).2)

/-- Rotation of a vector about the world vertical (Y) axis by the angle
whose cosine/sine pair is `cs` (right-handed, matching cgmath). -/
def specRotY (cs : ℚ × ℚ) (p : Vector3) : Vector3 :=
  ⟨cs.1 * p.x + cs.2 * p.z, p.y, -cs.2 * p.x + cs.1 * p.z⟩

/-! ## Concrete fixtures used by counterexamples and witnesses -/

/-- A local transform: scale x by 2. -/
def l0 : Matrix4 :=
  ⟨⟨2, 0, 0, 0⟩, ⟨0, 1, 0, 0⟩, ⟨0, 0, 1, 0⟩, ⟨0, 0, 0, 1⟩⟩

/-- A world transform: unit shear (column 0 carries a y component). -/
def w0 : Matrix4 :=
  ⟨⟨1, 1, 0, 0⟩, ⟨0, 1, 0, 0⟩, ⟨0, 0, 1, 0⟩, ⟨0, 0, 0, 1⟩⟩

/-- A transform with invertible 3x3 block: scale z by 2. -/
def t0 : Matrix4 :=
  ⟨⟨1, 0, 0, 0⟩, ⟨0, 1, 0, 0⟩, ⟨0, 0, 2, 0⟩, ⟨0, 0, 0, 1⟩⟩

/-- A singular transform: z column zero. -/
def tSing : Matrix4 :=
  ⟨⟨1, 0, 0, 0⟩, ⟨0, 1, 0, 0⟩, ⟨0, 0, 0, 0⟩, ⟨0, 0, 0, 1⟩⟩

/-- Controller with only the forward (`W`/`Up`) axis active. -/
def ctrlForward : CameraController :=
  { CameraController.new with up_press := true }

/-- Controller with only the left (`A`/`Left`) axis active. -/
def ctrlLeft : CameraController :=
  { CameraController.new with left_press := true }

/-- Controller with the forward and left axes simultaneously active. -/
def ctrlForwardLeft : CameraController :=
  { CameraController.new with up_press := true, left_press := true }

/-- The initial camera pose of `Camera::new`, with identity placeholder
uniform/buffer contents. -/
def sampleCamera : Camera :=
  { position := ⟨0, 0, 2⟩, target := ⟨0, 0, -1⟩, up := ⟨0, 1, 0⟩
    aspect := (WIDTH : ℚ) / (HEIGHT : ℚ)
    uniform := Matrix4.identity, buffer := Matrix4.identity }

/-- An identity model matrix record. -/
def sampleModelMatrix : ModelMatrix :=
  { localM := Matrix4.identity, world := Matrix4.identity
    buffer := { model := Matrix4.identity, normal := Matrix3.identity } }

/-- A concrete application state: startup sizes, initial camera, inactive
controller, the light of `State::new` at `(5,0,0)` with color
`(0.4, 0.8, 0.6)`, and an identity object transform. -/
def sampleState : AppState :=
  { size := (WIDTH, HEIGHT), configWidth := WIDTH, configHeight := HEIGHT
    depthTexture := (WIDTH, HEIGHT)
    camera := sampleCamera
    cameraController := CameraController.new
    light := { uniform := { position := ⟨5, 0, 0⟩, color := ⟨2/5, 4/5, 3/5⟩ }
               buffer := { position := ⟨5, 0, 0⟩, color := ⟨2/5, 4/5, 3/5⟩ } }
    objModelMatrix := sampleModelMatrix }

/-! ## Helper lemmas -/

@[simp]
theorem Vector3.add_def (a b : Vector3) :
    a + b = ⟨a.x + b.x, a.y + b.y, a.z + b.z⟩ := rfl

@[simp]
theorem Vector3.sub_def (a b : Vector3) :
    a - b = ⟨a.x - b.x, a.y - b.y, a.z - b.z⟩ := rfl

@[simp]
theorem Vector3.neg_def (a : Vector3) :
    -a = ⟨-a.x, -a.y, -a.z⟩ := rfl

@[simp]
theorem Vector3.zero_def : (0 : Vector3) = ⟨0, 0, 0⟩ := rfl

@[simp]
theorem Matrix3.hmul_mul3 (a b : Matrix3) : a * b = a.mul b := rfl

@[simp]
theorem Matrix4.hmul_mul4 (a b : Matrix4) : a * b = a.mul b := rfl

theorem Matrix3.det_transpose (m : Matrix3) :
    m.transpose.determinant = m.determinant := by
  obtain ⟨⟨a1, a2, a3⟩, ⟨b1, b2, b3⟩, ⟨c1, c2, c3⟩⟩ := m
  simp only [Matrix3.transpose, Matrix3.determinant, Vector3.cross, Vector3.dot]
  ring

theorem Matrix3.invert_eq_none_iff (m : Matrix3) :
    m.invert = none ↔ m.determinant = 0 := by
  simp only [Matrix3.invert]
  split <;> simp_all

theorem Matrix3.invert_mul_spec (m mi : Matrix3) (h : m.invert = some mi) :
    m.mul mi = Matrix3.identity ∧ mi.mul m = Matrix3.identity := by
  by_cases hd : m.determinant = 0
  · simp [Matrix3.invert, hd] at h
  · obtain ⟨⟨a1, a2, a3⟩, ⟨b1, b2, b3⟩, ⟨c1, c2, c3⟩⟩ := m
    simp only [Matrix3.invert, if_neg hd, Option.some.injEq] at h
    simp only [Matrix3.determinant, Vector3.cross, Vector3.dot] at hd
    subst h
    constructor <;>
      (apply Matrix3.ext <;> apply Vector3.ext <;>
        (simp only [Matrix3.mul, Matrix3.mulVec, Matrix3.transpose,
           Matrix3.identity, Matrix3.determinant, Vector3.cross, Vector3.dot,
           Vector3.divScalar, Vector3.scale, Vector3.add_def];
         field_simp;
         try ring))

theorem Matrix4.mul_assoc (a b c : Matrix4) :
    (a.mul b).mul c = a.mul (b.mul c) := by
  apply Matrix4.ext <;> apply Vector4.ext <;>
    (simp only [Matrix4.mul, Matrix4.mulVec]; ring)

/-! ## Claims about `src/model_matrix.rs` -/

/-- **C1** (code_bug evaluation): `ModelMatrix::to_raw()` does return
`RawModelMatrix::new(world * local)` for every state, but the record
serialized at construction by `ModelMatrix::new(device, local, world)` is
`RawModelMatrix::new(local * world)`, which differs from the spec's
`world * local` composition at the concrete transforms `l0`, `w0`. -/
theorem modelMatrix_new_buffer_order :
    (∀ m : ModelMatrix, m.to_raw = RawModelMatrix.new (m.world * m.localM)) ∧
    (ModelMatrix.new l0 w0).map ModelMatrix.buffer = RawModelMatrix.new (l0 * w0) ∧
    (ModelMatrix.new l0 w0).map ModelMatrix.buffer ≠ RawModelMatrix.new (w0 * l0) := by
  refine ⟨fun m => rfl, ?_, ?_⟩
  · simp only [ModelMatrix.new, RawModelMatrix.new, Option.map]
    norm_num [l0, w0, Matrix4.mul, Matrix4.mulVec, mat4_to_mat3, Matrix3.transpose,
      Matrix3.invert, Matrix3.determinant, Vector3.cross, Vector3.dot,
      Vector3.divScalar]
  · simp only [ModelMatrix.new, RawModelMatrix.new, Option.map]
    norm_num [l0, w0, Matrix4.mul, Matrix4.mulVec, mat4_to_mat3, Matrix3.transpose,
      Matrix3.invert, Matrix3.determinant, Vector3.cross, Vector3.dot,
      Vector3.divScalar, RawModelMatrix.mk.injEq, Matrix4.mk.injEq,
      Vector4.mk.injEq]

/-- **C2**: for every transform whose upper-left 3x3 block is invertible
(nonzero determinant), `RawModelMatrix::new` succeeds and the `normal`
field is the exact inverse of the transpose of the 3x3 block of the
`model` field (two-sided), i.e. the inverse-transpose. -/
theorem rawModelMatrix_normal_is_inverse_transpose (t : Matrix4)
    (h : (mat4_to_mat3 t).determinant ≠ 0) :
    ∃ r, RawModelMatrix.new t = some r ∧ r.model = t ∧
      r.normal.mul (mat4_to_mat3 r.model).transpose = Matrix3.identity ∧
      ((mat4_to_mat3 r.model).transpose).mul r.normal = Matrix3.identity := by
  have hdt : (mat4_to_mat3 t).transpose.determinant ≠ 0 := by
    rw [Matrix3.det_transpose]; exact h
  cases hinv : (mat4_to_mat3 t).transpose.invert with
  | none => exact absurd ((Matrix3.invert_eq_none_iff _).mp hinv) hdt
  | some n =>
      have hmul := Matrix3.invert_mul_spec _ _ hinv
      refine ⟨⟨t, n⟩, ?_, rfl, hmul.2, hmul.1⟩
      simp only [RawModelMatrix.new]
      rw [hinv]

/-- Witness for C2 at the concrete transform `t0` (z scaled by 2). -/
theorem rawModelMatrix_normal_is_inverse_transpose_witness :
    (mat4_to_mat3 t0).determinant ≠ 0 ∧
    (∃ r, RawModelMatrix.new t0 = some r ∧ r.model = t0 ∧
      r.normal.mul (mat4_to_mat3 r.model).transpose = Matrix3.identity ∧
      ((mat4_to_mat3 r.model).transpose).mul r.normal = Matrix3.identity) :=
  ⟨by norm_num [t0, mat4_to_mat3, Matrix3.determinant, Vector3.cross, Vector3.dot],
   rawModelMatrix_normal_is_inverse_transpose t0
     (by norm_num [t0, mat4_to_mat3, Matrix3.determinant, Vector3.cross,
       Vector3.dot])⟩

/-- **C3**: `RawModelMatrix::new(transform)` panics (the `.unwrap()` on the
inversion, modelled by `none`) if and only if the upper-left 3x3 block of
the transform has determinant zero; in every other case it returns a
record (never a substituted default). -/
theorem rawModelMatrix_new_panics_iff_singular (t : Matrix4) :
    RawModelMatrix.new t = none ↔ (mat4_to_mat3 t).determinant = 0 := by
  rw [← Matrix3.det_transpose (mat4_to_mat3 t), ← Matrix3.invert_eq_none_iff]
  simp only [RawModelMatrix.new]
  cases hinv : (mat4_to_mat3 t).transpose.invert <;> simp [hinv]

/-- **C9**: `rotate_world(q)` right-multiplies the world matrix by the
rotation matrix of `q`, leaves `local` (and the buffer) unchanged, and
successive rotations compose in the order applied. -/
theorem rotate_world_spec (m : ModelMatrix) (q q' : Quaternion) :
    (m.rotate_world q).world = m.world * q.toMatrix4 ∧
    (m.rotate_world q).localM = m.localM ∧
    (m.rotate_world q).buffer = m.buffer ∧
    ((m.rotate_world q).rotate_world q').world =
      m.world * (q.toMatrix4 * q'.toMatrix4) := by
  refine ⟨rfl, rfl, rfl, ?_⟩
  simp only [ModelMatrix.rotate_world, Matrix4.hmul_mul4]
  exact Matrix4.mul_assoc m.world q.toMatrix4 q'.toMatrix4

/-- **C10**: `translate_world(delta)` adds the delta components to the w
components of the world matrix's first three columns (the bottom row in
cgmath's column-major layout) and changes nothing else — in particular the
fourth column, the upper-left 3x3 block and `local` are untouched;
`translate_local` acts symmetrically on `local`. -/
theorem translate_world_local_spec (m : ModelMatrix) (d : Vector3) :
    (m.translate_world d).world.x =
      ⟨m.world.x.x, m.world.x.y, m.world.x.z, m.world.x.w + d.x⟩ ∧
    (m.translate_world d).world.y =
      ⟨m.world.y.x, m.world.y.y, m.world.y.z, m.world.y.w + d.y⟩ ∧
    (m.translate_world d).world.z =
      ⟨m.world.z.x, m.world.z.y, m.world.z.z, m.world.z.w + d.z⟩ ∧
    (m.translate_world d).world.w = m.world.w ∧
    mat4_to_mat3 (m.translate_world d).world = mat4_to_mat3 m.world ∧
    (m.translate_world d).localM = m.localM ∧
    (m.translate_world d).buffer = m.buffer ∧
    (m.translate_local d).localM.x =
      ⟨m.localM.x.x, m.localM.x.y, m.localM.x.z, m.localM.x.w + d.x⟩ ∧
    (m.translate_local d).localM.y =
      ⟨m.localM.y.x, m.localM.y.y, m.localM.y.z, m.localM.y.w + d.y⟩ ∧
    (m.translate_local d).localM.z =
      ⟨m.localM.z.x, m.localM.z.y, m.localM.z.z, m.localM.z.w + d.z⟩ ∧
    (m.translate_local d).localM.w = m.localM.w ∧
    mat4_to_mat3 (m.translate_local d).localM = mat4_to_mat3 m.localM ∧
    (m.translate_local d).world = m.world ∧
    (m.translate_local d).buffer = m.buffer :=
  ⟨rfl, rfl, rfl, rfl, rfl, rfl, rfl, rfl, rfl, rfl, rfl, rfl, rfl, rfl⟩

/-! ## Claims about the event loop and camera -/

/-- **C4**: the event loop's per-frame handling of `State::render` results
(`src/lib.rs` lines 243-251): a `Lost` error triggers exactly one
`State::resize` call with the last known size (`state.ctx.size`) and keeps
the loop running; `OutOfMemory` sets the control flow to `Exit` with no
other effect; `Outdated` and `Timeout` are only logged and the frame is
skipped with no state change; a successful frame changes nothing. -/
theorem render_result_handling (sqrtQ cotHalfDeg : ℚ → ℚ) (s : AppState)
    (cf : ControlFlow) :
    handleRenderResult sqrtQ cotHalfDeg (.error .Lost) s cf =
      ((s.resize sqrtQ cotHalfDeg s.size).1, cf, [s.size], []) ∧
    handleRenderResult sqrtQ cotHalfDeg (.error .OutOfMemory) s cf =
      (s, ControlFlow.Exit, [], []) ∧
    handleRenderResult sqrtQ cotHalfDeg (.error .Outdated) s cf =
      (s, cf, [], [SurfaceError.Outdated]) ∧
    handleRenderResult sqrtQ cotHalfDeg (.error .Timeout) s cf =
      (s, cf, [], [SurfaceError.Timeout]) ∧
    handleRenderResult sqrtQ cotHalfDeg (.ok ()) s cf = (s, cf, [], []) :=
  ⟨rfl, rfl, rfl, rfl, rfl⟩

/-- **C5**: `build_view_projection_matrix` returns `C * P * V` where `V`
is the right-handed look-at matrix from `position` toward `target` with
the given `up`, `P` is the right-handed perspective matrix with the fixed
90-degree vertical field of view, the camera's aspect, near `0.1` and far
`100`, and the constant correction matrix `C` leaves the x, y, w clip
components unchanged and maps z to `0.5*z + 0.5*w`. -/
theorem build_view_projection_spec (sqrtQ cotHalfDeg : ℚ → ℚ) (c : Camera) :
    c.build_view_projection_matrix sqrtQ cotHalfDeg =
      OPENGL_TO_WGPU_MATRIX *
        perspectiveMatrix (cotHalfDeg 90) c.aspect (1/10) 100 *
        lookAtRh sqrtQ c.position c.target c.up ∧
    (∀ v : Vector4, OPENGL_TO_WGPU_MATRIX.mulVec v =
      ⟨v.x, v.y, v.z / 2 + v.w / 2, v.w⟩) := by
  constructor
  · rfl
  · intro v
    apply Vector4.ext <;>
      (simp only [Matrix4.mulVec, OPENGL_TO_WGPU_MATRIX]; ring)

/-- **C6**: a resize request with zero width or zero height is a no-op:
the state (camera aspect, camera uniform, surface configuration, stored
size, depth texture) is returned unchanged and no `surface.configure`
call is recorded. -/
theorem resize_zero_noop (sqrtQ cotHalfDeg : ℚ → ℚ) (s : AppState)
    (new_size : ℕ × ℕ) (h : new_size.1 = 0 ∨ new_size.2 = 0) :
    s.resize sqrtQ cotHalfDeg new_size = (s, []) := by
  have hno : ¬(new_size.1 > 0 ∧ new_size.2 > 0) := by
    rcases h with h | h <;> simp [h]
  simp only [AppState.resize, if_neg hno]

/-- Witness for C6: resizing the sample state to `(0, 720)` is a no-op. -/
theorem resize_zero_noop_witness :
    (((0, 720) : ℕ × ℕ).1 = 0 ∨ ((0, 720) : ℕ × ℕ).2 = 0) ∧
    sampleState.resize (fun q => q) (fun q => q) (0, 720) = (sampleState, []) :=
  ⟨Or.inl rfl,
   resize_zero_noop (fun q => q) (fun q => q) sampleState (0, 720) (Or.inl rfl)⟩

/-! Vector algebra helpers for the controller claim. -/

theorem Vector3.dot_self_cross (v w : Vector3) : v.dot (v.cross w) = 0 := by
  simp only [Vector3.dot, Vector3.cross]
  ring

theorem Vector3.dot_scale_left (v w : Vector3) (a : ℚ) :
    (v.scale a).dot w = a * v.dot w := by
  simp only [Vector3.dot, Vector3.scale]
  ring

theorem Vector3.dot_scale_right (v w : Vector3) (a : ℚ) :
    v.dot (w.scale a) = a * v.dot w := by
  simp only [Vector3.dot, Vector3.scale]
  ring

theorem Vector3.dot_neg_right (v w : Vector3) : v.dot (-w) = -(v.dot w) := by
  simp only [Vector3.dot, Vector3.neg_def]
  ring

theorem Vector3.normSq_add_of_dot_zero (a b : Vector3) (h : a.dot b = 0) :
    (a + b).normSq = a.normSq + b.normSq := by
  obtain ⟨a1, a2, a3⟩ := a
  obtain ⟨b1, b2, b3⟩ := b
  simp only [Vector3.dot] at h
  simp only [Vector3.normSq, Vector3.dot, Vector3.add_def]
  linear_combination 2 * h

theorem Vector3.normSq_pos (v : Vector3) (h : v ≠ 0) : 0 < v.normSq := by
  obtain ⟨x, y, z⟩ := v
  have h' : ¬(x = 0 ∧ y = 0 ∧ z = 0) := by
    intro hc
    exact h (by simp [hc.1, hc.2.1, hc.2.2])
  simp only [Vector3.normSq, Vector3.dot]
  rcases not_and_or.mp h' with hx | hyz
  · nlinarith [mul_self_nonneg y, mul_self_nonneg z, mul_self_pos.mpr hx]
  · rcases not_and_or.mp hyz with hy | hz
    · nlinarith [mul_self_nonneg x, mul_self_nonneg z, mul_self_pos.mpr hy]
    · nlinarith [mul_self_nonneg x, mul_self_nonneg y, mul_self_pos.mpr hz]

/-- **C7**: with both the forward and left axes active, one
`update_camera` call displaces position and target by exactly the sum of
the forward-only and left-only displacements from the same initial state
(no renormalization), and — when both single-axis displacements are
nonvanishing, the embedding's rendering of "up not parallel to the view
direction" for an abstract square root — the squared magnitude of the
combined displacement strictly exceeds each individual one. -/
theorem update_camera_diagonal_additive (sqrtQ : ℚ → ℚ) (cam : Camera)
    (hF : (ctrlForward.update_camera sqrtQ cam).position - cam.position ≠ 0)
    (hL : (ctrlLeft.update_camera sqrtQ cam).position - cam.position ≠ 0) :
    ((ctrlForwardLeft.update_camera sqrtQ cam).position - cam.position =
        ((ctrlForward.update_camera sqrtQ cam).position - cam.position) +
          ((ctrlLeft.update_camera sqrtQ cam).position - cam.position)) ∧
    ((ctrlForwardLeft.update_camera sqrtQ cam).target - cam.target =
        ((ctrlForward.update_camera sqrtQ cam).target - cam.target) +
          ((ctrlLeft.update_camera sqrtQ cam).target - cam.target)) ∧
    ((ctrlForward.update_camera sqrtQ cam).position - cam.position).normSq <
      ((ctrlForwardLeft.update_camera sqrtQ cam).position - cam.position).normSq ∧
    ((ctrlLeft.update_camera sqrtQ cam).position - cam.position).normSq <
      ((ctrlForwardLeft.update_camera sqrtQ cam).position - cam.position).normSq := by
  have pFwd : (ctrlForward.update_camera sqrtQ cam).position =
      cam.position +
        ((cam.target - cam.position).normalize sqrtQ).scale CAM_SPEED := by
    simp [CameraController.update_camera, ctrlForward, CameraController.new]
  have tFwd : (ctrlForward.update_camera sqrtQ cam).target =
      cam.target +
        ((cam.target - cam.position).normalize sqrtQ).scale CAM_SPEED := by
    simp [CameraController.update_camera, ctrlForward, CameraController.new]
  have pLeft : (ctrlLeft.update_camera sqrtQ cam).position =
      cam.position -
        ((((cam.target - cam.position).normalize sqrtQ).cross
          cam.up).normalize sqrtQ).scale CAM_SPEED := by
    simp [CameraController.update_camera, ctrlLeft, CameraController.new]
  have tLeft : (ctrlLeft.update_camera sqrtQ cam).target =
      cam.target -
        ((((cam.target - cam.position).normalize sqrtQ).cross
          cam.up).normalize sqrtQ).scale CAM_SPEED := by
    simp [CameraController.update_camera, ctrlLeft, CameraController.new]
  have pBoth : (ctrlForwardLeft.update_camera sqrtQ cam).position =
      cam.position +
        ((cam.target - cam.position).normalize sqrtQ).scale CAM_SPEED -
        ((((cam.target - cam.position).normalize sqrtQ).cross
          cam.up).normalize sqrtQ).scale CAM_SPEED := by
    simp [CameraController.update_camera, ctrlForwardLeft, CameraController.new]
  have tBoth : (ctrlForwardLeft.update_camera sqrtQ cam).target =
      cam.target +
        ((cam.target - cam.position).normalize sqrtQ).scale CAM_SPEED -
        ((((cam.target - cam.position).normalize sqrtQ).cross
          cam.up).normalize sqrtQ).scale CAM_SPEED := by
    simp [CameraController.update_camera, ctrlForwardLeft, CameraController.new]
  have hdF : (ctrlForward.update_camera sqrtQ cam).position - cam.position =
      ((cam.target - cam.position).normalize sqrtQ).scale CAM_SPEED := by
    rw [pFwd]; apply Vector3.ext <;> (simp only [Vector3.add_def, Vector3.sub_def]; ring)
  have hdL : (ctrlLeft.update_camera sqrtQ cam).position - cam.position =
      -(((((cam.target - cam.position).normalize sqrtQ).cross
          cam.up).normalize sqrtQ).scale CAM_SPEED) := by
    rw [pLeft]
    apply Vector3.ext <;>
      (simp only [Vector3.add_def, Vector3.sub_def, Vector3.neg_def]; ring)
  have hdBoth : (ctrlForwardLeft.update_camera sqrtQ cam).position - cam.position =
      ((cam.target - cam.position).normalize sqrtQ).scale CAM_SPEED +
      -(((((cam.target - cam.position).normalize sqrtQ).cross
          cam.up).normalize sqrtQ).scale CAM_SPEED) := by
    rw [pBoth]
    apply Vector3.ext <;>
      (simp only [Vector3.add_def, Vector3.sub_def, Vector3.neg_def]; ring)
  have hdot : (((cam.target - cam.position).normalize sqrtQ).scale CAM_SPEED).dot
      (-(((((cam.target - cam.position).normalize sqrtQ).cross
          cam.up).normalize sqrtQ).scale CAM_SPEED)) = 0 := by
    rw [Vector3.dot_neg_right]
    simp only [Vector3.normalize]
    rw [Vector3.dot_scale_left, Vector3.dot_scale_right, Vector3.dot_scale_right,
      Vector3.dot_self_cross]
    ring
  have hkey : ((ctrlForwardLeft.update_camera sqrtQ cam).position -
      cam.position).normSq =
      (((cam.target - cam.position).normalize sqrtQ).scale CAM_SPEED).normSq +
      (-(((((cam.target - cam.position).normalize sqrtQ).cross
          cam.up).normalize sqrtQ).scale CAM_SPEED)).normSq := by
    rw [hdBoth]
    exact Vector3.normSq_add_of_dot_zero _ _ hdot
  rw [hdF] at hF
  rw [hdL] at hL
  have hFpos := Vector3.normSq_pos _ hF
  have hLpos := Vector3.normSq_pos _ hL
  refine ⟨?_, ?_, ?_, ?_⟩
  · rw [pBoth, pFwd, pLeft]
    apply Vector3.ext <;>
      (simp only [Vector3.add_def, Vector3.sub_def]; ring)
  · rw [tBoth, tFwd, tLeft]
    apply Vector3.ext <;>
      (simp only [Vector3.add_def, Vector3.sub_def]; ring)
  · rw [hdF, hkey]; linarith
  · rw [hdL, hkey]; linarith

/-- Witness for C7 at the initial camera pose with `sqrtQ ≡ 3` (the exact
square root of the relevant magnitudes there). -/
theorem update_camera_diagonal_additive_witness :
    ((ctrlForward.update_camera (fun _ => 3) sampleCamera).position -
        sampleCamera.position ≠ 0) ∧
    ((ctrlLeft.update_camera (fun _ => 3) sampleCamera).position -
        sampleCamera.position ≠ 0) ∧
    (((ctrlForwardLeft.update_camera (fun _ => 3) sampleCamera).position -
        sampleCamera.position =
        ((ctrlForward.update_camera (fun _ => 3) sampleCamera).position -
          sampleCamera.position) +
        ((ctrlLeft.update_camera (fun _ => 3) sampleCamera).position -
          sampleCamera.position)) ∧
     ((ctrlForwardLeft.update_camera (fun _ => 3) sampleCamera).target -
        sampleCamera.target =
        ((ctrlForward.update_camera (fun _ => 3) sampleCamera).target -
          sampleCamera.target) +
        ((ctrlLeft.update_camera (fun _ => 3) sampleCamera).target -
          sampleCamera.target)) ∧
     ((ctrlForward.update_camera (fun _ => 3) sampleCamera).position -
        sampleCamera.position).normSq <
       ((ctrlForwardLeft.update_camera (fun _ => 3) sampleCamera).position -
         sampleCamera.position).normSq ∧
     ((ctrlLeft.update_camera (fun _ => 3) sampleCamera).position -
        sampleCamera.position).normSq <
       ((ctrlForwardLeft.update_camera (fun _ => 3) sampleCamera).position -
         sampleCamera.position).normSq) := by
  have hF : (ctrlForward.update_camera (fun _ => 3) sampleCamera).position -
      sampleCamera.position ≠ 0 := by
    simp [CameraController.update_camera, ctrlForward, CameraController.new,
      sampleCamera, Vector3.normalize, Vector3.scale, Vector3.cross, Vector3.dot,
      CAM_SPEED, Vector3.ext_iff]
    norm_num
  have hL : (ctrlLeft.update_camera (fun _ => 3) sampleCamera).position -
      sampleCamera.position ≠ 0 := by
    simp [CameraController.update_camera, ctrlLeft, CameraController.new,
      sampleCamera, Vector3.normalize, Vector3.scale, Vector3.cross, Vector3.dot,
      CAM_SPEED, Vector3.ext_iff]
    norm_num
  exact ⟨hF, hL, update_camera_diagonal_additive (fun _ => 3) sampleCamera hF hL⟩

/-! Quaternion rotation helpers for the light claim. -/

/-- For a unit half-angle pair, cgmath's quaternion rotation about the Y
axis is the plane rotation by the full angle `(ch² - sh², 2·ch·sh)`. -/
theorem rotateVector_axisY (ch sh : ℚ) (h : ch ^ 2 + sh ^ 2 = 1)
    (p : Vector3) :
    (Quaternion.fromAxisAngle ⟨0, 1, 0⟩ ch sh).rotateVector p =
      specRotY (ch ^ 2 - sh ^ 2, 2 * ch * sh) p := by
  obtain ⟨px, py, pz⟩ := p
  refine Vector3.ext ?_ ?_ ?_ <;>
    simp only [Quaternion.fromAxisAngle, Quaternion.rotateVector, specRotY,
      Vector3.cross, Vector3.scale, Vector3.add_def]
  · linear_combination (-px) * h
  · ring
  · linear_combination (-pz) * h

/-- Composing a Y-axis rotation after another adds the angles, by the
angle-addition formulas. -/
theorem specRotY_comp (u v : ℚ × ℚ) (p : Vector3) :
    specRotY u (specRotY v p) =
      specRotY (v.1 * u.1 - v.2 * u.2, v.2 * u.1 + v.1 * u.2) p := by
  refine Vector3.ext ?_ ?_ ?_ <;> (simp only [specRotY]; try ring)

/-- **C8**: after `N` per-frame update ticks (each rotating the light by a
fixed angle with half-angle cosine/sine `chL, shL` about the world Y axis),
the light position equals the initial position rotated by `N` times the
full per-tick angle, for any initial camera, controller and
object-transform state; the light color is unchanged. -/
theorem light_orbit (sqrtQ cotHalfDeg : ℚ → ℚ) (chL shL chO shO : ℚ)
    (hunit : chL ^ 2 + shL ^ 2 = 1) :
    ∀ (N : ℕ) (s s' : AppState),
      AppState.updateIter sqrtQ cotHalfDeg chL shL chO shO N s = some s' →
      s'.light.uniform.position =
        specRotY (specAngleN (chL ^ 2 - shL ^ 2) (2 * chL * shL) N)
          s.light.uniform.position ∧
      s'.light.uniform.color = s.light.uniform.color := by
  intro N
  induction N with
  | zero =>
      intro s s' h
      simp only [AppState.updateIter] at h
      obtain rfl := Option.some.inj h
      refine ⟨?_, rfl⟩
      refine Vector3.ext ?_ ?_ ?_ <;> (simp only [specAngleN, specRotY]; try ring)
  | succ n ih =>
      intro s s' h
      simp only [AppState.updateIter] at h
      cases hu : AppState.update sqrtQ cotHalfDeg chL shL chO shO s with
      | none => rw [hu] at h; simp at h
      | some s1 =>
          rw [hu] at h
          obtain ⟨hpos, hcol⟩ := ih s1 s' h
          have hstep : s1.light.uniform.position =
              specRotY (chL ^ 2 - shL ^ 2, 2 * chL * shL)
                s.light.uniform.position ∧
              s1.light.uniform.color = s.light.uniform.color := by
            simp only [AppState.update] at hu
            cases hr : (s.objModelMatrix.rotate_world
                (Quaternion.fromAxisAngle ⟨0, 1, 0⟩ chO shO)).to_raw with
            | none => rw [hr] at hu; simp at hu
            | some raw =>
                rw [hr] at hu
                obtain rfl := Option.some.inj hu
                exact ⟨rotateVector_axisY chL shL hunit _, rfl⟩
          rw [hpos, hstep.1, specRotY_comp]
          exact ⟨rfl, hcol.trans hstep.2⟩

/-- Witness for C8: one tick from the sample state, with the unit
half-angle pair `(3/5, 4/5)` for the light, identity object rotation, and
trivial transcendental stubs; the tick succeeds (`isSome`) and the
theorem's conclusion holds there. -/
theorem light_orbit_witness :
    ((3/5 : ℚ) ^ 2 + (4/5 : ℚ) ^ 2 = 1) ∧
    (AppState.updateIter (fun _ => 1) (fun _ => 1) (3/5) (4/5) 1 0 1
      sampleState).isSome = true ∧
    (∀ s' : AppState,
      AppState.updateIter (fun _ => 1) (fun _ => 1) (3/5) (4/5) 1 0 1
          sampleState = some s' →
      s'.light.uniform.position =
        specRotY (specAngleN ((3/5 : ℚ) ^ 2 - (4/5 : ℚ) ^ 2)
          (2 * (3/5) * (4/5)) 1) sampleState.light.uniform.position ∧
      s'.light.uniform.color = sampleState.light.uniform.color) := by
  refine ⟨by norm_num, ?_, fun s' h =>
    light_orbit (fun _ => 1) (fun _ => 1) (3/5) (4/5) 1 0 (by norm_num) 1
      sampleState s' h⟩
  simp only [AppState.updateIter, AppState.update]
  norm_num [sampleState, sampleCamera, sampleModelMatrix,
    CameraController.update_camera, CameraController.new,
    Camera.update_view_proj, Camera.build_view_projection_matrix, lookAtRh,
    perspectiveMatrix, OPENGL_TO_WGPU_MATRIX, Matrix4.mul, Matrix4.mulVec,
    Matrix4.identity, Vector3.normalize, Vector3.scale, Vector3.cross,
    Vector3.dot, ModelMatrix.rotate_world, ModelMatrix.to_raw,
    RawModelMatrix.new, mat4_to_mat3, Matrix3.transpose, Matrix3.invert,
    Matrix3.determinant, Vector3.divScalar, Quaternion.fromAxisAngle,
    Quaternion.toMatrix4, Quaternion.toMatrix3, Quaternion.rotateVector,
    FOV, NEAR_CLIP, FAR_CLIP, CAM_SPEED, WIDTH, HEIGHT]

end WgpuLearning
